import Mathlib

/-!
Verification development for the isaaxiot/service embedded supervisor
(packages `process` and `service`): a shallow embedding of `ConfigEntry`
(process/config.go), `Process` (process/process.go), the `supervisedService`
adapter (service_process.go), and — where the source file is absent from the
checkout — spec-modelled stand-ins for `ProcessManager` and the signal map.

Strings are embedded as `List Char` (named `Str`) so that the character-level
operations of the Go code (`strings.Split`, `strings.TrimSpace`, slicing
`v[len(v)-2:]`, `strconv.Atoi`) become structurally recursive Lean functions
amenable to both evaluation and induction.  Machine integers are embedded as
`Int` (no operation in the verified fragment is overflow-sensitive).
-/

/-- Strings of the embedded program, as lists of characters. -/
abbrev Str := List Char

/-- Coerce a Lean string literal into the embedding's string type. -/
def str (s : String) : Str := s.data

namespace GoStr

/-- Is `c` one of the ASCII whitespace characters trimmed by
`strings.TrimSpace` (the pidfile contents in scope are ASCII). -/
def isSpace (c : Char) : Bool :=
  c = ' ' || c = '\t' || c = '\n' || c = '\r'

/-- `strings.TrimSpace`: drop leading and trailing whitespace. -/
def trimSpace (s : Str) : Str :=
  ((s.dropWhile isSpace).reverse.dropWhile isSpace).reverse

/-- Accumulate the decimal value of a digit string; `none` unless every
character is a digit.  Mirrors the digit loop of `strconv.Atoi`. -/
def digitsVal : Str → Option Nat → Option Nat
  | _, none => none
  | [], some n => some n
  | c :: cs, some n =>
      if c.isDigit then digitsVal cs (some (n * 10 + (c.toNat - 48))) else none

/-- `strconv.Atoi`: optional sign followed by at least one digit; every other
shape is an error (`none`).  Overflow of the 64-bit range is not modelled. -/
def atoi : Str → Option Int
  | [] => none
  | '+' :: cs =>
      if cs = [] then none else (digitsVal cs (some 0)).map Int.ofNat
  | '-' :: cs =>
      if cs = [] then none else (digitsVal cs (some 0)).map (fun n => -(n : Int))
  | cs => (digitsVal cs (some 0)).map Int.ofNat

/-- `strings.Split(s, sep)` for a one-character separator: always returns at
least one (possibly empty) field. -/
def splitOn (sep : Char) : Str → List Str
  | [] => [[]]
  | c :: cs =>
      let r := splitOn sep cs
      if c = sep then [] :: r
      else (c :: r.headD []) :: r.tail

/-- Everything after the first occurrence of `':'`, or `none` when the string
contains no colon (`strings.Index` + slice, as ProcessManager.Find uses it). -/
def afterColon : Str → Option Str
  | [] => none
  | c :: cs => if c = ':' then some cs else afterColon cs

/-- ASCII upper-casing, for the case-insensitive signal-name map. -/
def upper (s : Str) : Str := s.map Char.toUpper

/-- `strings.HasSuffix`: does `v` end in `suffix`. -/
def hasSuffix (v suffix : Str) : Bool :=
  v.drop (v.length - suffix.length) = suffix

end GoStr

/-- `process.ConfigEntry` (process/config.go): name, ordered argument list and
the string→string option map; the environment map is not needed by any
verified claim and is omitted. -/
structure ConfigEntry where
  Name : Str
  Arguments : List Str
  KeyValues : List (Str × Str)
  deriving Repr, DecidableEq

namespace ConfigEntry

/-- First binding of `key` in the option map (Go map lookup; the embedded
maps never bind a key twice, the association list's leftmost binding wins). -/
def lookup (c : ConfigEntry) (key : Str) : Option Str :=
  go c.KeyValues
where
  go : List (Str × Str) → Option Str
    | [] => none
    | (k, v) :: rest => if k = key then some v else go rest

/-- `ConfigEntry.GetString`. -/
def GetString (c : ConfigEntry) (key defValue : Str) : Str :=
  match c.lookup key with
  | some s => s
  | none => defValue

/-- `toInt` (process/config.go): parse, multiply by `factor`, default on a
parse error. -/
def toInt (s : Str) (factor defValue : Int) : Int :=
  match GoStr.atoi s with
  | some i => i * factor
  | none => defValue

/-- `ConfigEntry.GetInt`. -/
def GetInt (c : ConfigEntry) (key : Str) (defValue : Int) : Int :=
  match c.lookup key with
  | some v => toInt v 1 defValue
  | none => defValue

/-- `ConfigEntry.GetBytes` (process/config.go lines 102–119): suffix
recognition on the last two bytes when the value is longer than two bytes. -/
def GetBytes (c : ConfigEntry) (key : Str) (defValue : Int) : Int :=
  match c.lookup key with
  | some v =>
      if v.length > 2 then
        let lastTwo := v.drop (v.length - 2)
        if lastTwo = str "MB" then toInt (v.take (v.length - 2)) (1024 * 1024) defValue
        else if lastTwo = str "GB" then toInt (v.take (v.length - 2)) (1024 * 1024 * 1024) defValue
        else if lastTwo = str "KB" then toInt (v.take (v.length - 2)) 1024 defValue
        else toInt v 1 defValue
      else toInt v 1 defValue
  | none => defValue

/-- The bytes getter as the spec words it: a trailing `KB`/`MB`/`GB` (tested
as a plain suffix, with no length guard) multiplies the parsed prefix by
1024 / 1024² / 1024³; no suffix parses the raw value; any parse failure and a
missing key give the default. -/
def getBytesSpec (c : ConfigEntry) (key : Str) (defValue : Int) : Int :=
  match c.lookup key with
  | some v =>
      if GoStr.hasSuffix v (str "KB") then toInt (v.take (v.length - 2)) 1024 defValue
      else if GoStr.hasSuffix v (str "MB") then toInt (v.take (v.length - 2)) (1024 * 1024) defValue
      else if GoStr.hasSuffix v (str "GB") then toInt (v.take (v.length - 2)) (1024 * 1024 * 1024) defValue
      else toInt v 1 defValue
  | none => defValue

end ConfigEntry

/-- `ProcessState` (process/process.go lines 21–32). -/
inductive ProcessState where
  | STOPPED
  | STARTING
  | RUNNING
  | BACKOFF
  | STOPPING
  | EXITED
  | FATAL
  | UNKNOWN
  deriving Repr, DecidableEq

/-- The wait status of an exited child: it either exited with a code or was
terminated by a signal.  `syscall.WaitStatus` restricted to what the
supervisor inspects. -/
inductive WaitStatus where
  | exited (code : Int)
  | signalled (sig : Int)
  deriving Repr, DecidableEq

/-- `syscall.WaitStatus.ExitStatus()`: the exit code for a normal exit, `-1`
for a signalled termination (Go returns -1 whenever `Exited()` is false). -/
def WaitStatus.exitStatus : WaitStatus → Int
  | .exited code => code
  | .signalled _ => -1

/-- The `os.Process` handle inside a child handle: only the pid is
observable to the supervisor. -/
structure ProcHandle where
  Pid : Int
  deriving Repr, DecidableEq

/-- `exec.Cmd` restricted to the fields the supervisor reads: path, argv,
the OS process handle (nil before spawn) and the wait status (nil until the
child has been waited for). -/
structure Cmd where
  Path : Str
  Args : List Str
  Process : Option ProcHandle
  ProcessState : Option WaitStatus
  deriving Repr, DecidableEq

/-- `process.Process` (process/process.go lines 55–69): the per-program state
machine.  Timestamps are unix epoch seconds (`time.Time.Unix()`); the lock
and the stdin pipe handle are concurrency/IO artefacts with no bearing on the
verified claims and are not part of the state. -/
structure Process where
  config : ConfigEntry
  cmd : Option Cmd
  startTime : Int
  stopTime : Int
  state : ProcessState
  inStart : Bool
  stopByUser : Bool
  retryTimes : Int
  pidfile : Str
  deriving Repr, DecidableEq

namespace Process

/-- `Process.GetName`. -/
def GetName (p : Process) : Str := p.config.Name

/-- `filepath.Join(dir, name + ".pid")` for the two shapes that occur:
an empty directory yields the bare file name. -/
def joinPath (dir file : Str) : Str :=
  if dir = [] then file else dir ++ '/' :: file

/-- `getStartSeconds`: `GetInt("startsecs", 1)`. -/
def getStartSeconds (p : Process) : Int := p.config.GetInt (str "startsecs") 1

/-- `getStartRetries`: `GetInt("startretries", 3)`. -/
def getStartRetries (p : Process) : Int := p.config.GetInt (str "startretries") 3

/-- `getExitCodes`: split `exitcodes` (default `"0,2"`) on commas and keep
the fields that parse as integers. -/
def getExitCodes (p : Process) : List Int :=
  (GoStr.splitOn ',' (p.config.GetString (str "exitcodes") (str "0,2"))).filterMap GoStr.atoi

/-- `inExitCodes`: membership in the configured exit-code list. -/
def inExitCodes (p : Process) (exitCode : Int) : Bool :=
  (p.getExitCodes).contains exitCode

/-- `getExitCode`: an error (`none`) when there is no wait status, otherwise
`ExitStatus()` of the wait status (on POSIX the `syscall.WaitStatus`
assertion always succeeds). -/
def getExitCode (cmd : Cmd) : Option Int :=
  cmd.ProcessState.map WaitStatus.exitStatus

/-- `Process.isAutoRestart` (process/process.go lines 312–332): `"false"` →
no, `"true"` → yes, anything else (the default `"unexpected"` included) →
restart iff there is a recorded wait status whose exit code is outside
`exitcodes`. -/
def isAutoRestart (p : Process) : Bool :=
  let autoRestart := p.config.GetString (str "autorestart") (str "unexpected")
  if autoRestart = str "false" then false
  else if autoRestart = str "true" then true
  else
    match p.cmd with
    | some cmd =>
        match getExitCode cmd with
        | some exitCode => !(p.inExitCodes exitCode)
        | none => false
    | none => false

/-- `Process.GetPid` (process/process.go lines 233–241): `0` in the resting
states, otherwise `cmd.Process.Pid` — which dereferences nil (modelled as
`none`) when no child handle or OS process is present. -/
def GetPid (p : Process) : Option Int :=
  match p.state with
  | .STOPPED | .FATAL | .UNKNOWN | .EXITED | .BACKOFF => some 0
  | _ => (p.cmd.bind Cmd.Process).map ProcHandle.Pid

end Process

/-- `NewProcess` (process/process.go lines 71–91): a freshly created Process
with no child handle, epoch-zero timestamps, state STOPPED and cleared
flags; the pidfile path is `<directory>/<name>.pid`. -/
def NewProcess (config : ConfigEntry) : Process :=
  { config := config
    cmd := none
    startTime := 0
    stopTime := 0
    state := .STOPPED
    inStart := false
    stopByUser := false
    retryTimes := 0
    pidfile := Process.joinPath (config.GetString (str "directory") [])
      (config.Name ++ str ".pid") }

/-- Result of an `Attach` call: the mutated process, whether the pidfile was
removed, and the returned error (if any). -/
structure AttachResult where
  proc : Process
  removedPidfile : Bool
  error : Option Str
  deriving Repr, DecidableEq

/-- `Process.Attach` (process/process.go lines 93–129).  The environment is
supplied as the result of `ioutil.ReadFile` on the pidfile (`.error msg` for
a read failure) and a liveness oracle `alive` (whether delivering signal 0 to
the pid succeeds; `os.FindProcess` itself never fails on POSIX).  Note that
the source parses **both** the pid and the start time from `pidinfo[0]`. -/
def Process.Attach (p : Process) (readResult : Except Str Str)
    (alive : Int → Bool) : AttachResult :=
  match readResult with
  | .error msg => ⟨{ p with state := .UNKNOWN }, false, some msg⟩
  | .ok info =>
      if info = [] then ⟨p, false, some (str "empty pid file")⟩
      else
        let pidinfo := GoStr.splitOn ':' info
        let intpid := (GoStr.atoi (GoStr.trimSpace (pidinfo.headD []))).getD 0
        if alive intpid then
          let command := p.config.GetString (str "command") []
          let starttime := (GoStr.atoi (GoStr.trimSpace (pidinfo.headD []))).getD 0
          ⟨{ p with
              cmd := some ⟨command, command :: p.config.Arguments, some ⟨intpid⟩, none⟩,
              state := .RUNNING,
              inStart := true,
              startTime := starttime }, false, none⟩
        else
          ⟨{ p with state := .STOPPED }, true, some (str "process not alive")⟩

/-- The pidfile payload written by `run` after a successful spawn
(process/process.go line 429): `fmt.Sprintf("%d:%d", pid, startTime.Unix())`. -/
def pidfileContent (pid epoch : Int) : Str :=
  intToStr pid ++ ':' :: intToStr epoch
where
  intToStr (i : Int) : Str :=
    if i < 0 then '-' :: Nat.toDigits 10 i.natAbs else Nat.toDigits 10 i.natAbs

/-- What one invocation of `run` did, as observed by the restart loop: the
child handle it left behind, the recorded start/stop instants, and the value
of the `stopByUser` flag when the run ended (`Stop` sets it concurrently). -/
structure RunObs where
  cmd : Option Cmd
  startT : Int
  stopT : Int
  stopByUser : Bool
  deriving Repr, DecidableEq

/-- Apply one run's observable effect to the process record. -/
def Process.applyRun (p : Process) (o : RunObs) : Process :=
  { p with cmd := o.cmd, startTime := o.startT, stopTime := o.stopT,
           stopByUser := o.stopByUser }

/-- The restart loop launched by `Process.Start` (process/process.go lines
151–188), driven by a finite trace of run observations (an empty trace ends
the account without a break).  Returns the number of `run` invocations
performed together with the final process record.  Mirrors the source: run,
update `retryTimes` against `startsecs`, then test `stopByUser`,
`isAutoRestart` and `startretries` in that order. -/
def restartLoop (p : Process) : List RunObs → Nat × Process
  | [] => (0, p)
  | o :: rest =>
      let p1 := p.applyRun o
      let p2 :=
        if p1.stopTime - p1.startTime < p1.getStartSeconds then
          { p1 with retryTimes := p1.retryTimes + 1 }
        else
          { p1 with retryTimes := 0 }
      if p2.stopByUser then (1, p2)
      else if !p2.isAutoRestart then (1, p2)
      else if p2.retryTimes ≥ p2.getStartRetries then (1, p2)
      else
        let rec_ := restartLoop p2 rest
        (rec_.1 + 1, rec_.2)

/-- Modelled from the spec: `signals.ToSignal` — the
`process/signals` package is not part of the checkout.  Spec §4.B: a fixed
mapping from case-insensitive signal names to the platform's signal numbers;
an unknown or empty name fails (`none`). -/
def toSignal (name : Str) : Option Int :=
  let u := GoStr.upper name
  if u = str "HUP" then some 1
  else if u = str "INT" then some 2
  else if u = str "QUIT" then some 3
  else if u = str "KILL" then some 9
  else if u = str "USR1" then some 10
  else if u = str "USR2" then some 12
  else if u = str "TERM" then some 15
  else if u = str "STOP" then some 19
  else none

/-- The graceful-signal stage of `Process.Stop` (process/process.go lines
554–557): resolve `GetString("stopsignal", "")` through the signal map and
deliver the result exactly when resolution succeeded (`err == nil`).
`some s` is the signal delivered before the SIGKILL escalation; `none` means
no graceful signal is sent. -/
def Process.stopGracefulSignal (p : Process) : Option Int :=
  toSignal (p.config.GetString (str "stopsignal") [])

namespace ProcessManager

/-- Modelled from the spec: the `ProcessManager`'s `name → Process` map
(process_manager.go is not part of the checkout), as an association list
whose leftmost binding is authoritative. -/
def lookup {α : Type} : List (Str × α) → Str → Option α
  | [], _ => none
  | (k, v) :: rest, name => if k = name then some v else lookup rest name

/-- Modelled from the spec: `ProcessManager.Find` (§4.D) — exact-match
lookup; on a miss, when the name contains `":"`, one retry with the suffix
after the first `":"`. -/
def Find {α : Type} (m : List (Str × α)) (name : Str) : Option α :=
  match lookup m name with
  | some p => some p
  | none =>
      match GoStr.afterColon name with
      | some suffix => lookup m suffix
      | none => none

/-- Modelled from the spec: `ProcessManager.CreateProcess` (§3, §4.D) —
inserts `NewProcess cfg` under `cfg.Name` when that name is absent, returns
the existing entry unchanged otherwise. -/
def CreateProcess (m : List (Str × Process)) (cfg : ConfigEntry) :
    List (Str × Process) × Process :=
  match lookup m cfg.Name with
  | some p => (m, p)
  | none => ((cfg.Name, NewProcess cfg) :: m, NewProcess cfg)

end ProcessManager

/-- Outcome of the adapter's `Stop`: either it returned (recording whether
`Process.Stop(wait=true)` was invoked on a real process) or it dereferenced
a nil `*Process`. -/
inductive StopEffect where
  | returned (calledStop : Bool)
  | nilPanic
  deriving Repr, DecidableEq

/-- `supervisedService.Stop` (service_process.go lines 121–127, identical in
the second variant at lines 295–301): `p := procMgr.Find(name); if p == nil
{ p.Stop(true) }; return nil`.  When `Find` hits, the branch is skipped and
`Process.Stop` is never called; when it misses, `p.Stop(true)` runs on a nil
receiver, whose first action `p.lock.RLock()` dereferences nil. -/
def supervisedServiceStop (m : List (Str × Process)) (name : Str) : StopEffect :=
  match ProcessManager.Find m name with
  | some _ => .returned false
  | none => .nilPanic

/-! ## Helper lemmas -/

theorem afterColon_append (g n : Str) (hg : ':' ∉ g) :
    GoStr.afterColon (g ++ ':' :: n) = some n := by
  induction g with
  | nil => simp [GoStr.afterColon]
  | cons c cs ih =>
      have hc : c ≠ ':' := fun h => hg (h ▸ List.mem_cons_self c cs)
      have hcs : ':' ∉ cs := fun h => hg (List.mem_cons_of_mem c h)
      simp [GoStr.afterColon, hc, ih hcs]

/-- The sequential break tests of the restart loop amount to a single
disjunctive break condition. -/
theorem restart_break_cases (q : Process) (rest : List RunObs) :
    (if q.stopByUser then (1, q)
     else if !q.isAutoRestart then (1, q)
     else if q.retryTimes ≥ q.getStartRetries then (1, q)
     else ((restartLoop q rest).1 + 1, (restartLoop q rest).2)) =
    (if q.stopByUser = true ∨ q.isAutoRestart = false ∨
        q.retryTimes ≥ q.getStartRetries
     then (1, q)
     else ((restartLoop q rest).1 + 1, (restartLoop q rest).2)) := by
  cases hsb : q.stopByUser <;> cases har : q.isAutoRestart <;>
    by_cases hrt : q.retryTimes ≥ q.getStartRetries <;>
      simp [hsb, har, hrt]

theorem afterColon_eq_none (n : Str) (hn : ':' ∉ n) :
    GoStr.afterColon n = none := by
  induction n with
  | nil => rfl
  | cons c cs ih =>
      have hc : c ≠ ':' := fun h => hn (h ▸ List.mem_cons_self c cs)
      have hcs : ':' ∉ cs := fun h => hn (List.mem_cons_of_mem c h)
      simp [GoStr.afterColon, hc, ih hcs]

/-! ## Claim theorems -/

/-- C2 (code bug): in both variants of `supervisedService.Stop` the nil test
is inverted, so when the service's name is registered in its manager the
branch invoking `Process.Stop(wait=true)` is skipped and `Process.Stop` is
never called, while an absent name makes the adapter call a method on a nil
`*Process` (a nil dereference).  The claim — `Stop(true)` on the found
process, safe return on a miss — describes the intended behaviour, which the
code contradicts. -/
theorem C2_stop_nil_check_inverted :
    supervisedServiceStop [(str "svc", NewProcess ⟨str "svc", [], []⟩)] (str "svc")
      = StopEffect.returned false ∧
    supervisedServiceStop [] (str "svc") = StopEffect.nilPanic := by
  constructor
  · rfl
  · rfl

/-- C3 (code bug): re-attaching to the pidfile written as `"<pid>:<epoch>"`
with pid 1234 and epoch 99 does set state RUNNING and `inStart`, but the
resulting `startTime` is 1234 — the code parses the **first**
colon-separated field (the pid) into `startTime` instead of the second (the
epoch), so `GetStartTime()` does not equal the epoch recorded by `run`. -/
theorem C3_attach_reads_pid_as_start_time :
    (Process.Attach (NewProcess ⟨str "svc", [], [(str "command", str "/bin/x")]⟩)
        (Except.ok (pidfileContent 1234 99)) (fun _ => true)).proc.startTime = 1234 ∧
    (Process.Attach (NewProcess ⟨str "svc", [], [(str "command", str "/bin/x")]⟩)
        (Except.ok (pidfileContent 1234 99)) (fun _ => true)).proc.state
      = ProcessState.RUNNING ∧
    (Process.Attach (NewProcess ⟨str "svc", [], [(str "command", str "/bin/x")]⟩)
        (Except.ok (pidfileContent 1234 99)) (fun _ => true)).proc.inStart = true ∧
    (1234 : Int) ≠ 99 := by
  refine ⟨?_, ?_, ?_, by decide⟩ <;> decide

/-- C6 counterexample: for a configuration in which the `stopsignal` option
is absent, `Stop` resolves the empty name, the signal map rejects it, and no
graceful signal at all — in particular not TERM — is delivered before the
SIGKILL escalation. -/
theorem C6_counterexample :
    (NewProcess ⟨str "svc", [], []⟩).stopGracefulSignal = none := by decide

/-- C6 amended: `Stop` delivers the signal-map resolution of the
`stopsignal` option exactly when resolution succeeds — `"TERM"` delivers
SIGTERM (15) — but when the option is absent the empty name fails to
resolve, so no graceful signal precedes the SIGKILL escalation (there is no
TERM default). -/
theorem C6_amended (p : Process) :
    (p.config.lookup (str "stopsignal") = none → p.stopGracefulSignal = none) ∧
    (p.config.lookup (str "stopsignal") = some (str "TERM") →
      p.stopGracefulSignal = some 15) := by
  constructor
  · intro h
    simp [Process.stopGracefulSignal, ConfigEntry.GetString, h]
    decide
  · intro h
    simp [Process.stopGracefulSignal, ConfigEntry.GetString, h]
    decide

/-- C6 witness: the amended theorem applied to a configuration without
`stopsignal` and to one with `stopsignal=TERM`. -/
theorem C6_amended_witness :
    (NewProcess ⟨str "a", [], []⟩).stopGracefulSignal = none ∧
    (NewProcess ⟨str "b", [], [(str "stopsignal", str "TERM")]⟩).stopGracefulSignal
      = some 15 :=
  ⟨(C6_amended (NewProcess ⟨str "a", [], []⟩)).1 rfl,
   (C6_amended (NewProcess ⟨str "b", [], [(str "stopsignal", str "TERM")]⟩)).2 rfl⟩

/-- C8 (manager modelled from the spec): `Find` is the identity on inserted
names; on a group-qualified name `g:n` (with `g`, `n` plain, colon-free
names) that is not itself a key it agrees with `Find` on `n`; and it returns
`none` when both the exact name and its colon-suffix miss. -/
theorem C8_find_addressing {α : Type} (m : List (Str × α)) :
    (∀ name p, ProcessManager.lookup m name = some p →
       ProcessManager.Find m name = some p) ∧
    (∀ g n, ':' ∉ g → ':' ∉ n →
       ProcessManager.lookup m (g ++ ':' :: n) = none →
       ProcessManager.Find m (g ++ ':' :: n) = ProcessManager.Find m n) ∧
    (∀ name, ProcessManager.lookup m name = none →
       (∀ suffix, GoStr.afterColon name = some suffix →
          ProcessManager.lookup m suffix = none) →
       ProcessManager.Find m name = none) := by
  refine ⟨?_, ?_, ?_⟩
  · intro name p h
    simp [ProcessManager.Find, h]
  · intro g n hg hn hmiss
    simp only [ProcessManager.Find, hmiss, afterColon_append g n hg]
    cases hl : ProcessManager.lookup m n with
    | some p => simp [hl]
    | none => simp [hl, afterColon_eq_none n hn]
  · intro name hmiss hsuf
    simp only [ProcessManager.Find, hmiss]
    cases ha : GoStr.afterColon name with
    | some suffix => simp [hsuf suffix ha]
    | none => simp

/-- C8 witness: the three conjuncts applied to the concrete manager
`[("n", 3)]` with the inserted name `"n"` and the qualified name `"g:n"`. -/
theorem C8_find_witness :
    ProcessManager.Find [(str "n", 3)] (str "n") = some 3 ∧
    ProcessManager.Find [(str "n", 3)] (str "g" ++ ':' :: str "n")
      = ProcessManager.Find [(str "n", 3)] (str "n") ∧
    ProcessManager.Find [(str "n", 3)] (str "m") = none :=
  ⟨(C8_find_addressing [(str "n", 3)]).1 (str "n") 3 (by decide),
   (C8_find_addressing [(str "n", 3)]).2.1 (str "g") (str "n")
     (by decide) (by decide) (by decide),
   (C8_find_addressing [(str "n", 3)]).2.2 (str "m") (by decide)
     (fun suffix h => by simp [GoStr.afterColon] at h)⟩

/-- C1 counterexample: with `autorestart` at its default `"unexpected"` and
`exitcodes` configured as `"-1"`, a child terminated by a signal yields
`isAutoRestart() = false` — the code treats the signalled termination as the
exit code −1 (`ExitStatus()`), which is a member of the configured list — so
signalled termination does not unconditionally count as unexpected. -/
theorem C1_counterexample :
    Process.isAutoRestart
      { NewProcess ⟨str "svc", [], [(str "exitcodes", str "-1")]⟩ with
        cmd := some ⟨str "/bin/x", [str "/bin/x"], some ⟨42⟩,
                     some (WaitStatus.signalled 9)⟩ } = false ∧
    (⟨str "svc", [], [(str "exitcodes", str "-1")]⟩ : ConfigEntry).GetString
        (str "autorestart") (str "unexpected") = str "unexpected" := by
  constructor <;> decide

/-- C1 amended: with `autorestart` resolving to `"unexpected"` and a
recorded wait status, `isAutoRestart()` is true iff `ExitStatus()` of that
status — the exit code for a normal exit, −1 for a signalled termination —
is not a member of the configured `exitcodes`; so a signalled termination
counts as unexpected exactly when −1 is not a configured exit code (it is
not in the default `"0,2"`). -/
theorem C1_amended (p : Process) (cmd : Cmd) (ws : WaitStatus)
    (har : p.config.GetString (str "autorestart") (str "unexpected")
      = str "unexpected")
    (hcmd : p.cmd = some cmd) (hws : cmd.ProcessState = some ws) :
    p.isAutoRestart = true ↔ p.inExitCodes ws.exitStatus = false := by
  have hbody : p.isAutoRestart = !(p.inExitCodes ws.exitStatus) := by
    unfold Process.isAutoRestart
    rw [har, if_neg (by decide), if_neg (by decide), hcmd]
    simp [Process.getExitCode, hws]
  rw [hbody]
  cases p.inExitCodes ws.exitStatus <;> simp

/-- C1 witness: a child killed by signal 9 under the default configuration
(`autorestart` and `exitcodes` both absent) is restarted. -/
theorem C1_amended_witness :
    Process.isAutoRestart
      { NewProcess ⟨str "svc", [], []⟩ with
        cmd := some ⟨str "/bin/x", [str "/bin/x"], some ⟨42⟩,
                     some (WaitStatus.signalled 9)⟩ } = true :=
  (C1_amended
      { NewProcess ⟨str "svc", [], []⟩ with
        cmd := some ⟨str "/bin/x", [str "/bin/x"], some ⟨42⟩,
                     some (WaitStatus.signalled 9)⟩ }
      ⟨str "/bin/x", [str "/bin/x"], some ⟨42⟩, some (WaitStatus.signalled 9)⟩
      (WaitStatus.signalled 9) (by decide) rfl rfl).mpr (by decide)

/-- C4 counterexample: a Process in state STARTING with a live child of
pid 5 has `GetPid() = 5 > 0` although its state is not RUNNING, so
`GetPid() > 0` is not equivalent to `state == RUNNING`. -/
theorem C4_counterexample :
    Process.GetPid
      { NewProcess ⟨str "svc", [], []⟩ with
        state := ProcessState.STARTING,
        cmd := some ⟨str "x", [str "x"], some ⟨5⟩, none⟩ } = some 5 ∧
    (0 : Int) < 5 ∧
    ({ NewProcess ⟨str "svc", [], []⟩ with
        state := ProcessState.STARTING,
        cmd := some ⟨str "x", [str "x"], some ⟨5⟩, none⟩ } : Process).state
      ≠ ProcessState.RUNNING := by
  refine ⟨by decide, by decide, by decide⟩

/-- C4 amended: when the child handle carries a positive pid, `GetPid()`
returns a positive value exactly when the state is one of STARTING, RUNNING
or STOPPING; and in every state of {STOPPED, FATAL, UNKNOWN, EXITED,
BACKOFF} it returns 0 unconditionally. -/
theorem C4_amended (p : Process) (pid : Int)
    (hpid : (p.cmd.bind Cmd.Process).map ProcHandle.Pid = some pid)
    (hpos : 0 < pid) :
    ((∃ x, p.GetPid = some x ∧ 0 < x) ↔
        (p.state = ProcessState.STARTING ∨ p.state = ProcessState.RUNNING ∨
         p.state = ProcessState.STOPPING)) ∧
    ((p.state = ProcessState.STOPPED ∨ p.state = ProcessState.FATAL ∨
      p.state = ProcessState.UNKNOWN ∨ p.state = ProcessState.EXITED ∨
      p.state = ProcessState.BACKOFF) → p.GetPid = some 0) := by
  cases hs : p.state <;>
    simp only [Process.GetPid, hs, hpid] <;>
    simp [hpos, Int.lt_irrefl]

/-- C4 witness: the amended theorem applied to a STARTING process whose
child has pid 5. -/
theorem C4_amended_witness :
    (0 : Int) < 5 ∧
    (({ NewProcess ⟨str "svc", [], []⟩ with
        state := ProcessState.STARTING,
        cmd := some ⟨str "x", [str "x"], some ⟨5⟩, none⟩ } : Process).state
        = ProcessState.STARTING ∨
     ({ NewProcess ⟨str "svc", [], []⟩ with
        state := ProcessState.STARTING,
        cmd := some ⟨str "x", [str "x"], some ⟨5⟩, none⟩ } : Process).state
        = ProcessState.RUNNING ∨
     ({ NewProcess ⟨str "svc", [], []⟩ with
        state := ProcessState.STARTING,
        cmd := some ⟨str "x", [str "x"], some ⟨5⟩, none⟩ } : Process).state
        = ProcessState.STOPPING) :=
  ⟨by decide,
   (C4_amended
      { NewProcess ⟨str "svc", [], []⟩ with
        state := ProcessState.STARTING,
        cmd := some ⟨str "x", [str "x"], some ⟨5⟩, none⟩ }
      5 rfl (by decide)).1.mp ⟨5, rfl, by decide⟩⟩

/-- C5: one unrolling of the restart loop launched by `Start`: after the
run, `retryTimes` is incremented when the uptime `stopTime − startTime` fell
below `startsecs` and reset to 0 otherwise, and the loop performs no
further run exactly when `stopByUser` is set, or `isAutoRestart()` is
false, or the updated `retryTimes` has reached `startretries`. -/
theorem C5_restart_loop_step (p : Process) (o : RunObs) (rest : List RunObs) :
    restartLoop p (o :: rest) =
      (let p1 := p.applyRun o
       let p2 : Process :=
         { p1 with
           retryTimes := if p1.stopTime - p1.startTime < p1.getStartSeconds
                         then p1.retryTimes + 1 else 0 }
       if p2.stopByUser = true ∨ p2.isAutoRestart = false ∨
          p2.retryTimes ≥ p2.getStartRetries
       then (1, p2)
       else ((restartLoop p2 rest).1 + 1, (restartLoop p2 rest).2)) := by
  rw [restartLoop]
  by_cases hup : (p.applyRun o).stopTime - (p.applyRun o).startTime
      < (p.applyRun o).getStartSeconds
  · simp only [if_pos hup]
    exact restart_break_cases
      { p.applyRun o with retryTimes := (p.applyRun o).retryTimes + 1 } rest
  · simp only [if_neg hup]
    exact restart_break_cases { p.applyRun o with retryTimes := 0 } rest

/-- C7 counterexample: an `Attach` that finds a readable but empty pidfile
fails with the error `"empty pid file"` yet does **not** remove the stale
pidfile, so removal does not happen on every failing invocation. -/
theorem C7_counterexample :
    (Process.Attach (NewProcess ⟨str "svc", [], []⟩) (Except.ok [])
        (fun _ => true)).removedPidfile = false ∧
    (Process.Attach (NewProcess ⟨str "svc", [], []⟩) (Except.ok [])
        (fun _ => true)).error = some (str "empty pid file") := by
  constructor <;> decide

/-- C7 amended: an unreadable pidfile sets state UNKNOWN, removes nothing
and returns the read error; an empty pidfile returns the error
`"empty pid file"` leaving both the state and the file untouched; a
recorded process that is not alive sets state STOPPED, removes the pidfile
and returns a non-nil error. -/
theorem C7_amended (p : Process) (alive : Int → Bool) (msg info : Str)
    (hinfo : info ≠ [])
    (hdead : alive ((GoStr.atoi (GoStr.trimSpace
        ((GoStr.splitOn ':' info).headD []))).getD 0) = false) :
    p.Attach (Except.error msg) alive
      = ⟨{ p with state := ProcessState.UNKNOWN }, false, some msg⟩ ∧
    p.Attach (Except.ok []) alive
      = ⟨p, false, some (str "empty pid file")⟩ ∧
    (p.Attach (Except.ok info) alive).proc.state = ProcessState.STOPPED ∧
    (p.Attach (Except.ok info) alive).removedPidfile = true ∧
    (p.Attach (Except.ok info) alive).error ≠ none := by
  have h3 : p.Attach (Except.ok info) alive
      = ⟨{ p with state := ProcessState.STOPPED }, true,
         some (str "process not alive")⟩ := by
    simp only [Process.Attach]
    rw [if_neg hinfo, hdead]
    simp
  refine ⟨rfl, rfl, ?_, ?_, ?_⟩ <;> rw [h3]
  simp

/-- C7 witness: the amended theorem applied to a fresh process, the dead-pid
oracle, read-error message `"e"` and pidfile content `"7"`. -/
theorem C7_amended_witness :
    (NewProcess ⟨str "svc", [], []⟩).Attach (Except.error (str "e"))
        (fun _ => false)
      = ⟨{ NewProcess ⟨str "svc", [], []⟩ with state := ProcessState.UNKNOWN },
         false, some (str "e")⟩ ∧
    (NewProcess ⟨str "svc", [], []⟩).Attach (Except.ok []) (fun _ => false)
      = ⟨NewProcess ⟨str "svc", [], []⟩, false, some (str "empty pid file")⟩ ∧
    ((NewProcess ⟨str "svc", [], []⟩).Attach (Except.ok (str "7"))
        (fun _ => false)).proc.state = ProcessState.STOPPED ∧
    ((NewProcess ⟨str "svc", [], []⟩).Attach (Except.ok (str "7"))
        (fun _ => false)).removedPidfile = true ∧
    ((NewProcess ⟨str "svc", [], []⟩).Attach (Except.ok (str "7"))
        (fun _ => false)).error ≠ none :=
  C7_amended (NewProcess ⟨str "svc", [], []⟩) (fun _ => false)
    (str "e") (str "7") (by decide) rfl

/-- C9: `GetBytes` agrees everywhere with the spec-worded byte getter: a
trailing `KB`/`MB`/`GB` multiplies the parsed prefix by 1024/1024²/1024³, a
value without such a suffix is parsed as a raw base-10 integer, and a
missing key or unparsable numeric part yields the default. -/
theorem C9_get_bytes_refines_spec (c : ConfigEntry) (key : Str)
    (defValue : Int) :
    c.GetBytes key defValue = c.getBytesSpec key defValue := by
  unfold ConfigEntry.GetBytes ConfigEntry.getBytesSpec
  cases hv : c.lookup key with
  | none => rfl
  | some v =>
      simp only [GoStr.hasSuffix, show (str "KB").length = 2 from rfl,
        show (str "MB").length = 2 from rfl, show (str "GB").length = 2 from rfl,
        decide_eq_true_eq]
      by_cases h3 : 2 < v.length
      · simp only [if_pos h3]
        by_cases hKB : v.drop (v.length - 2) = str "KB"
        · rw [if_pos hKB, if_neg (by rw [hKB]; decide), if_neg (by rw [hKB]; decide),
            if_pos hKB]
        · by_cases hMB : v.drop (v.length - 2) = str "MB"
          · rw [if_pos hMB, if_neg hKB, if_pos hMB]
          · by_cases hGB : v.drop (v.length - 2) = str "GB"
            · rw [if_neg hMB, if_pos hGB, if_neg hKB, if_neg hMB, if_pos hGB]
            · rw [if_neg hMB, if_neg hGB, if_neg hKB, if_neg hKB, if_neg hMB,
                if_neg hGB]
      · have hle : v.length ≤ 2 := Nat.le_of_not_lt h3
        simp only [if_neg h3, show str "KB" = ['K', 'B'] from rfl,
          show str "MB" = ['M', 'B'] from rfl,
          show str "GB" = ['G', 'B'] from rfl]
        rcases v with _ | ⟨a, _ | ⟨b, _ | ⟨c2, rest⟩⟩⟩
        · simp
        · simp
        · by_cases hKB : (a = 'K' ∧ b = 'B')
          · obtain ⟨rfl, rfl⟩ := hKB
            simp [ConfigEntry.toInt, show GoStr.atoi ['K', 'B'] = none from rfl,
              show GoStr.atoi ([] : Str) = none from rfl]
          · by_cases hMB : (a = 'M' ∧ b = 'B')
            · obtain ⟨rfl, rfl⟩ := hMB
              simp [ConfigEntry.toInt, show GoStr.atoi ['M', 'B'] = none from rfl,
                show GoStr.atoi ([] : Str) = none from rfl]
            · by_cases hGB : (a = 'G' ∧ b = 'B')
              · obtain ⟨rfl, rfl⟩ := hGB
                simp [ConfigEntry.toInt,
                  show GoStr.atoi ['G', 'B'] = none from rfl,
                  show GoStr.atoi ([] : Str) = none from rfl]
              · have eKB : ¬([a, b] : Str) = ['K', 'B'] := by
                  simpa using hKB
                have eMB : ¬([a, b] : Str) = ['M', 'B'] := by
                  simpa using hMB
                have eGB : ¬([a, b] : Str) = ['G', 'B'] := by
                  simpa using hGB
                simp [eKB, eMB, eGB]
        · exfalso
          simp only [List.length_cons] at hle
          omega

/-- C10: a Process fresh from `NewProcess` — and hence the one
`CreateProcess` returns for a not-yet-registered name — starts STOPPED with
no child handle (`cmd = none`, so creation spawns nothing), zero
`retryTimes`, cleared `inStart` and `stopByUser`, and `GetPid() = 0`. -/
theorem C10_new_process_initial_state (m : List (Str × Process))
    (cfg : ConfigEntry) (habs : ProcessManager.lookup m cfg.Name = none) :
    (ProcessManager.CreateProcess m cfg).2 = NewProcess cfg ∧
    (NewProcess cfg).state = ProcessState.STOPPED ∧
    (NewProcess cfg).cmd = none ∧
    (NewProcess cfg).retryTimes = 0 ∧
    (NewProcess cfg).inStart = false ∧
    (NewProcess cfg).stopByUser = false ∧
    (NewProcess cfg).GetPid = some 0 := by
  refine ⟨?_, rfl, rfl, rfl, rfl, rfl, rfl⟩
  simp [ProcessManager.CreateProcess, habs]

/-- C10 witness: an empty manager and a concrete configuration. -/
theorem C10_witness :
    (ProcessManager.CreateProcess [] ⟨str "svc", [], []⟩).2
        = NewProcess ⟨str "svc", [], []⟩ ∧
    (NewProcess (⟨str "svc", [], []⟩ : ConfigEntry)).state = ProcessState.STOPPED ∧
    (NewProcess (⟨str "svc", [], []⟩ : ConfigEntry)).cmd = none ∧
    (NewProcess (⟨str "svc", [], []⟩ : ConfigEntry)).retryTimes = 0 ∧
    (NewProcess (⟨str "svc", [], []⟩ : ConfigEntry)).inStart = false ∧
    (NewProcess (⟨str "svc", [], []⟩ : ConfigEntry)).stopByUser = false ∧
    (NewProcess (⟨str "svc", [], []⟩ : ConfigEntry)).GetPid = some 0 :=
  C10_new_process_initial_state [] ⟨str "svc", [], []⟩ rfl
